import Mathlib

/-
Verification of the PyQtImageViewer repository: a shallow embedding of the
undo-stack / commit protocol of `ImageViewer/FullImage.py`, the filter range
check of `ImageViewer/ImageTools.py`, the directory-listing functions of
`ImageViewer/MainWindow.py`, the selection-rectangle computation of
`FullImage.mouseMoveEvent`, and the thumbnail load/cancel scheme of
`ImageViewer/Thumbnail.py`.

Images and the pixel-level filter kernels are external-library values the
repository never inspects, so they are embedded as an abstract type `α` and
abstract functions `α → α`; Qt rectangles (`QRectF`, `qreal` coordinates) are
embedded with rational coordinates; Python `str` path names are embedded as
`List Char` with the Python code-point comparison and ASCII lowering.
-/

/-! ### ImageTools.py -/

/-- Result of `ImageTools.SuperResolution`: the returned image together with
whether `logging.log(logging.ERROR, ...)` was executed on the way. -/
structure SRResult (α : Type) where
  image : α
  errorLogged : Bool
deriving DecidableEq

/-- `ImageTools.SuperResolution(inputImage, factor)`: if `factor >= 2 and
factor <= 4` the cv2 FSRCNN model upscales the image (embedded as the abstract
`upsample` function); otherwise the error is logged and the input image itself
is returned. -/
def SuperResolution {α : Type} (upsample : Int → α → α) (inputImage : α) (factor : Int) :
    SRResult α :=
  if factor ≥ 2 ∧ factor ≤ 4 then
    { image := upsample factor inputImage, errorLogged := false }
  else
    { image := inputImage, errorLogged := true }

/-! ### FullImage.py: viewer state, undo stack and commit protocol

`α` is the abstract type of PIL images, `ρ` the abstract type of the
selection-rectangle payload (`QGraphicsRectItem`). The embedded state keeps
the fields of `FullImage` that the undo/commit protocol reads or writes:
`_pilImage`, `_undoBuffer`, `_imageCanBeSaved`, the save `QAction` enabled
state driven by `imageModifiedSignal`, and `_graphicsRectItem`. -/

structure FullImageState (α ρ : Type) where
  pilImage : Option α
  undoBuffer : List α
  imageCanBeSaved : Bool
  saveActionEnabled : Bool
  graphicsRectItem : Option ρ
deriving DecidableEq

/-- `FullImage.UpdatePixmap`: when `_pilImage is not None` it removes the
selection rectangle from the scene (the pixmap/zoom bookkeeping it also does
has no bearing on the state fields embedded here). -/
def UpdatePixmap {α ρ : Type} (s : FullImageState α ρ) : FullImageState α ρ :=
  if s.pilImage.isSome then { s with graphicsRectItem := none } else s

/-- The `@undo` decorator of `FullImage`: when `_pilImage is not None` it
appends the current image to `_undoBuffer`, runs the wrapped manipulation,
calls `UpdatePixmap`, sets `_imageCanBeSaved = True` and emits
`imageModifiedSignal(True)` (which enables the save action); when `_pilImage`
is `None` nothing at all happens. -/
def undoDecorator {α ρ : Type} (func : FullImageState α ρ → FullImageState α ρ)
    (s : FullImageState α ρ) : FullImageState α ρ :=
  match s.pilImage with
  | none => s
  | some img =>
    let s1 := { s with undoBuffer := s.undoBuffer ++ [img] }
    let s2 := func s1
    let s3 := UpdatePixmap s2
    { s3 with imageCanBeSaved := true, saveActionEnabled := true }

/-- Body of `FullImage.CropImage` (inside the decorator): when both the
selection rectangle and the image are present, replace `_pilImage` by the
cropped image; otherwise do nothing. `cropFn` embeds
`Image.crop((rect.left(), rect.top(), rect.right(), rect.bottom()))`. -/
def CropImage_inner {α ρ : Type} (cropFn : ρ → α → α) (s : FullImageState α ρ) :
    FullImageState α ρ :=
  match s.graphicsRectItem, s.pilImage with
  | some rect, some img => { s with pilImage := some (cropFn rect img) }
  | _, _ => s

/-- Body shared by every filter method of `FullImage` (`Sharpen`, `Blur`,
`Contour`, `Detail`, `EdgeEnhance`, `Emboss`, `FindEdges`, `Smooth`,
`UnsharpMask`, `AutoContrast`, `Colour`, `Contrast`, `Brightness`,
`BlackAndWhite`, `Denoise`, `SuperResolution`): when `_pilImage is not None`,
replace it by `f` applied to it, where `f` is the corresponding `ImageTools`
function (with its factor argument, if any, already supplied). -/
def Filter_inner {α ρ : Type} (f : α → α) (s : FullImageState α ρ) : FullImageState α ρ :=
  match s.pilImage with
  | some img => { s with pilImage := some (f img) }
  | none => s

/-- The mutating operations of `FullImage`: either one of the filter methods
(each an `ImageTools` function `f`) or `CropImage`. -/
inductive MutatingOp (α ρ : Type) where
  | filterOp (f : α → α)
  | cropOp (cropFn : ρ → α → α)

/-- Run one decorated mutating operation on the viewer state. -/
def applyOp {α ρ : Type} : MutatingOp α ρ → FullImageState α ρ → FullImageState α ρ
  | .filterOp f => undoDecorator (Filter_inner f)
  | .cropOp cropFn => undoDecorator (CropImage_inner cropFn)

/-- Run a sequence of mutating operations, oldest first. -/
def applyOps {α ρ : Type} (ops : List (MutatingOp α ρ)) (s : FullImageState α ρ) :
    FullImageState α ρ :=
  ops.foldl (fun st op => applyOp op st) s

/-- `FullImage.UndoLastChange`: if `_undoBuffer` is non-empty, pop the latest
image off the buffer (Python `list.pop()` pops the last element), make it
current and call `UpdatePixmap`; afterwards, if the buffer is (now) empty, set
`_imageCanBeSaved = False` and emit `imageModifiedSignal(False)` (disabling
the save action). -/
def UndoLastChange {α ρ : Type} (s : FullImageState α ρ) : FullImageState α ρ :=
  let s1 :=
    match s.undoBuffer.getLast? with
    | some img => UpdatePixmap { s with pilImage := some img, undoBuffer := s.undoBuffer.dropLast }
    | none => s
  if s1.undoBuffer.isEmpty then
    { s1 with imageCanBeSaved := false, saveActionEnabled := false }
  else s1

/-- Viewer state right after `MainWindow._MaximiseImage` →
`FullImage.InitialiseView` has loaded image `img`: empty undo buffer,
`_imageCanBeSaved = False`, save action disabled by `_updateMenu`, no
selection rectangle. -/
def initState {α ρ : Type} (img : α) : FullImageState α ρ :=
  { pilImage := some img
    undoBuffer := []
    imageCanBeSaved := false
    saveActionEnabled := false
    graphicsRectItem := none }

/-- A concrete two-operation sequence (a filter and a crop) over `Nat` images,
used to instantiate the general theorems. -/
def exampleOps : List (MutatingOp Nat Unit) :=
  [MutatingOp.filterOp Nat.succ, MutatingOp.cropOp (fun _ n => n + 7)]

/-- The events of a viewer session that touch the embedded state: a decorated
mutating operation, `UndoLastChange`, creating the selection rectangle
(`mouseMoveEvent` during a modifier drag), and removing it (`mousePressEvent`
left-click / `ZoomImage`). Rectangle creation and removal touch no other
embedded field. -/
inductive ViewerStep (α ρ : Type) : FullImageState α ρ → FullImageState α ρ → Prop where
  | mutate (op : MutatingOp α ρ) (s : FullImageState α ρ) : ViewerStep α ρ s (applyOp op s)
  | undoLast (s : FullImageState α ρ) : ViewerStep α ρ s (UndoLastChange s)
  | rectSet (r : ρ) (s : FullImageState α ρ) :
      ViewerStep α ρ s { s with graphicsRectItem := some r }
  | rectClear (s : FullImageState α ρ) :
      ViewerStep α ρ s { s with graphicsRectItem := none }

/-- States of a viewer session reachable from opening image `img0`. -/
inductive ViewerReachable (α ρ : Type) (img0 : α) : FullImageState α ρ → Prop where
  | init : ViewerReachable α ρ img0 (initState img0)
  | step {s s' : FullImageState α ρ} :
      ViewerReachable α ρ img0 s → ViewerStep α ρ s s' → ViewerReachable α ρ img0 s'

/-! ### Python path names for MainWindow.py: a `List Char` embedding

Python `str` names are embedded as `List Char`; `str.lower()` (the names here
are ASCII) as a `Char.toLower` map, Python string `<` as code-point
lexicographic comparison, and `pathlib.PurePath.suffix` by the CPython rule:
the part of the final component from its last dot, unless that dot is the
first or the last character. -/

/-- Python `<` on single characters: comparison of code points. -/
def charLt (a b : Char) : Bool := a.toNat < b.toNat

/-- Python `<` on strings: lexicographic by code point. -/
def strLtb : List Char → List Char → Bool
  | [], [] => false
  | [], _ :: _ => true
  | _ :: _, [] => false
  | a :: as, b :: bs => if a = b then strLtb as bs else charLt a b

/-- The "not greater" relation `Python sorted` effectively sorts by (it uses
only `<` comparisons and is stable). -/
def strLeb (a b : List Char) : Bool := !(strLtb b a)

/-- Python `str.lower()` on the ASCII names involved. -/
def strLower (s : List Char) : List Char := s.map Char.toLower

/-- Index of the last dot of a name, if any. -/
def lastIndexOfDot : List Char → Option Nat
  | [] => none
  | c :: cs =>
    match lastIndexOfDot cs with
    | some i => some (i + 1)
    | none => if c = '.' then some 0 else none

/-- Python `pathlib.PurePath.suffix` of a final path component: the substring
from the last dot, empty when there is no dot or the dot is the first
character (hidden files) or the last character. -/
def pathSuffix (name : List Char) : List Char :=
  match lastIndexOfDot name with
  | some i => if 0 < i ∧ i < name.length - 1 then name.drop i else []
  | none => []

/-- Python `path.name.startswith('.')`. -/
def startsWithDot (name : List Char) : Bool :=
  match name with
  | '.' :: _ => true
  | _ => false

/-! ### Constants.py and MainWindow.py: the directory listing -/

/-- One immediate child of the current directory (`Path` from
`Path.iterdir()`): its final-component name and whether `path.is_dir()`. -/
structure DirEntry where
  name : List Char
  isDir : Bool
deriving DecidableEq

/-- `Constants.IMAGE_EXTENSIONS.values()`. -/
def IMAGE_EXTENSIONS : List (List Char) :=
  [".gif".data, ".jpg".data, ".jpeg".data, ".png".data, ".webp".data]

/-- `Constants.VIDEO_EXTENSIONS.values()`. -/
def VIDEO_EXTENSIONS : List (List Char) :=
  [".mp4".data]

/-- `Constants.SUPPORTED_EXTENSIONS.values()`, the merge
`IMAGE_EXTENSIONS | VIDEO_EXTENSIONS`. -/
def SUPPORTED_EXTENSIONS : List (List Char) :=
  IMAGE_EXTENSIONS ++ VIDEO_EXTENSIONS

/-- The comparison `sorted(..., key=lambda x: x.name.lower())` sorts by. -/
def nameKeyLe (a b : DirEntry) : Bool := strLeb (strLower a.name) (strLower b.name)

/-- The relation `Python sorted(..., key=lambda x: x.name.lower())` sorts
by. -/
def nameKeyRel (a b : DirEntry) : Prop := nameKeyLe a b = true

instance : DecidableRel nameKeyRel := fun a b => decEq (nameKeyLe a b) true

/-- `MainWindow._GetImagePathList`: the children whose `suffix.lower()` is in
`SUPPORTED_EXTENSIONS.values()` (note: no `is_file` check), sorted
case-insensitively by name (Python `sorted` embedded as a sort by the same
comparison; the claims here do not observe the order of ties). -/
def GetImagePathList (children : List DirEntry) : List DirEntry :=
  (children.filter
    (fun e => SUPPORTED_EXTENSIONS.contains (strLower (pathSuffix e.name)))).insertionSort
      nameKeyRel

/-- `MainWindow._GetFolderList`: the non-hidden child folders sorted
case-insensitively by name, with the parent folder inserted at the front. -/
def GetFolderList (parent : DirEntry) (children : List DirEntry) : List DirEntry :=
  let folderList :=
    (children.filter (fun e => e.isDir && !(startsWithDot e.name))).insertionSort nameKeyRel
  parent :: folderList

/-- The browser listing built by `MainWindow.SetLabels`: the folder list
extended by the image path list. -/
def SetLabelsFileList (parent : DirEntry) (children : List DirEntry) : List DirEntry :=
  GetFolderList parent children ++ GetImagePathList children

/-- The example directory contents from the spec: two subfolders and three media
files, listed here in on-disk (arbitrary) order. -/
def exampleDirChildren : List DirEntry :=
  [⟨"video1.mp4".data, false⟩, ⟨"subfolderB".data, true⟩, ⟨"image2.JPG".data, false⟩,
   ⟨"subfolderA".data, true⟩, ⟨"image1.png".data, false⟩]

/-- The parent directory entry of the example directory from the spec. -/
def exampleParentDir : DirEntry := ⟨"parent".data, true⟩

/-! ### MainWindow.py: next/previous image navigation -/

/-- `MainWindow._nextImage` on the current index: increment, and wrap to 0
when the result reaches `len(self._imageList)`. -/
def nextImage (imageListLength currentImageIndex : Int) : Int :=
  let idx := currentImageIndex + 1
  if idx ≥ imageListLength then 0 else idx

/-- `MainWindow._prevImage` on the current index: decrement, and wrap to
`len(self._imageList) - 1` when the result is negative. -/
def prevImage (imageListLength currentImageIndex : Int) : Int :=
  let idx := currentImageIndex - 1
  if idx < 0 then imageListLength - 1 else idx

/-! ### FullImage.mouseMoveEvent: the selection rectangle (C6)

`QRectF`/`QPointF` are embedded with rational coordinates. -/

/-- A `QPointF` in scene coordinates. -/
structure QPointF where
  x : ℚ
  y : ℚ
deriving DecidableEq

/-- A `QRectF` given by its edges. -/
structure QRectF where
  left : ℚ
  top : ℚ
  right : ℚ
  bottom : ℚ
deriving DecidableEq

/-- The Qt emptiness test for rectangles: width or height not positive. -/
def QRectF.isEmptyRect (a : QRectF) : Bool := a.right ≤ a.left || a.bottom ≤ a.top

/-- `QRectF.intersected`: the max/min overlap rectangle, or the null
rectangle when either operand or the overlap is empty. -/
def QRectF.intersected (a b : QRectF) : QRectF :=
  if a.isEmptyRect || b.isEmptyRect then ⟨0, 0, 0, 0⟩
  else
    let tmp : QRectF := ⟨max a.left b.left, max a.top b.top,
      min a.right b.right, min a.bottom b.bottom⟩
    if tmp.isEmptyRect then ⟨0, 0, 0, 0⟩ else tmp

/-- `QRectF.contains(QPointF)`: inside or on the edge; an empty rectangle
contains nothing. -/
def QRectF.containsPoint (rc : QRectF) (px py : ℚ) : Prop :=
  rc.left < rc.right ∧ rc.top < rc.bottom ∧
  rc.left ≤ px ∧ px ≤ rc.right ∧ rc.top ≤ py ∧ py ≤ rc.bottom

/-- Set inclusion of rectangles, point by point. -/
def QRectF.subsetOf (a b : QRectF) : Prop :=
  ∀ px py : ℚ, a.containsPoint px py → b.containsPoint px py

/-- The selection rectangle recomputed by `FullImage.mouseMoveEvent` during a
modifier-held drag: the axis-aligned bounding box of the drag start point and
the cursor position (min/max of the coordinates), intersected with the
bounding rectangle of the pixmap whenever a pixmap item is present (an image
rather than a video is loaded). -/
def mouseMoveSelectionRect (sceneStartDragPoint sceneCursorPos : QPointF)
    (pixmapBoundingRect : Option QRectF) : QRectF :=
  let topLeft : QPointF := ⟨min sceneStartDragPoint.x sceneCursorPos.x,
    min sceneStartDragPoint.y sceneCursorPos.y⟩
  let bottomRight : QPointF := ⟨max sceneStartDragPoint.x sceneCursorPos.x,
    max sceneStartDragPoint.y sceneCursorPos.y⟩
  let rect : QRectF := ⟨topLeft.x, topLeft.y, bottomRight.x, bottomRight.y⟩
  match pixmapBoundingRect with
  | some bd => rect.intersected bd
  | none => rect

/-! ### Thumbnail.py: load and cancellation (C8)

`α` is the abstract type of decoded images / pixmaps. The embedded cell state
keeps `_loadCancelled`, `_qtImage`, `_currentImage`, the pixmap currently
shown by `_thumbnailImage`, and whether the `loaded` signal has been
emitted. -/

structure ThumbnailState (α : Type) where
  loadCancelled : Bool
  qtImage : Option α
  currentImage : Option α
  labelPixmap : Option α
  loadedEmitted : Bool
deriving DecidableEq

/-- A thumbnail cell right after `SetDefaultImage` showed the placeholder
(`_defaultImage` at reduced opacity) and submitted the load task. -/
def initThumbnail {α : Type} (defaultImage : α) : ThumbnailState α :=
  { loadCancelled := false
    qtImage := none
    currentImage := none
    labelPixmap := some defaultImage
    loadedEmitted := false }

/-- `Thumbnail.CancelLoad`: sets `_loadCancelled = True` (and asks the pool
to drop the future, which touches no embedded field). -/
def CancelLoad {α : Type} (s : ThumbnailState α) : ThumbnailState α :=
  { s with loadCancelled := true }

/-- `Thumbnail.ResizeImage`: each block checks `_loadCancelled` first. The
local `pixmap` is converted from `_qtImage` when set, else from the shared
video/folder image (`fallbackImage`; `none` embeds a pixmap left null);
`_currentImage` becomes that pixmap scaled to the thumbnail size; finally, if
`_currentImage` is set and the load was not cancelled, the label pixmap is
replaced and the `loaded` signal is emitted. -/
def ResizeImage {α : Type} (fallbackImage : Option α) (scaleToThumbnail : α → α)
    (s : ThumbnailState α) : ThumbnailState α :=
  let pixmap : Option α :=
    if !s.loadCancelled then
      match s.qtImage with
      | some qt => some qt
      | none => fallbackImage
    else none
  let s1 :=
    if !s.loadCancelled then { s with currentImage := pixmap.map scaleToThumbnail } else s
  if s1.currentImage.isSome && !s1.loadCancelled then
    { s1 with labelPixmap := s1.currentImage, loadedEmitted := true }
  else s1

/-- `Thumbnail._LoadImageInThread`: decode and scale the image of the file into
`_qtImage` unless cancelled, then call `ResizeImage` unless cancelled.
`decodedImage` embeds the result of `Image.open` + `thumbnail` + `ImageQt`. -/
def LoadImageInThread {α : Type} (fallbackImage : Option α) (scaleToThumbnail : α → α)
    (decodedImage : α) (s : ThumbnailState α) : ThumbnailState α :=
  let s1 := if !s.loadCancelled then { s with qtImage := some decodedImage } else s
  if !s1.loadCancelled then ResizeImage fallbackImage scaleToThumbnail s1 else s1

/-- The events that can still touch a cell after its load was submitted: the
worker task body, and `ResizeImage` (also called from the resize handler of the window
handler). -/
inductive ThumbnailStep (α : Type) where
  | loadInThread (decodedImage : α)
  | resize

/-- Run one thumbnail event. -/
def applyThumbnailStep {α : Type} (fallbackImage : Option α) (scaleToThumbnail : α → α) :
    ThumbnailStep α → ThumbnailState α → ThumbnailState α
  | .loadInThread d, s => LoadImageInThread fallbackImage scaleToThumbnail d s
  | .resize, s => ResizeImage fallbackImage scaleToThumbnail s

/-- Run a sequence of thumbnail events, oldest first. -/
def applyThumbnailSteps {α : Type} (fallbackImage : Option α) (scaleToThumbnail : α → α)
    (steps : List (ThumbnailStep α)) (s : ThumbnailState α) : ThumbnailState α :=
  steps.foldl (fun st stp => applyThumbnailStep fallbackImage scaleToThumbnail stp st) s

/-! ### Lemmas on the commit protocol (C1, C2, C7) -/

/-- When no image is loaded, the `@undo` decorator makes every mutating
operation a complete no-op. -/
lemma applyOp_of_pilImage_none {α ρ : Type} (op : MutatingOp α ρ) (s : FullImageState α ρ)
    (h : s.pilImage = none) : applyOp op s = s := by
  cases op <;> simp [applyOp, undoDecorator, h]

/-- A mutating operation run on a loaded image leaves some image loaded. -/
lemma applyOp_pilImage {α ρ : Type} (op : MutatingOp α ρ) (s : FullImageState α ρ) (img : α)
    (h : s.pilImage = some img) : ∃ img', (applyOp op s).pilImage = some img' := by
  cases op with
  | filterOp f =>
    exact ⟨f img, by simp [applyOp, undoDecorator, h, Filter_inner, UpdatePixmap]⟩
  | cropOp cropFn =>
    cases hr : s.graphicsRectItem with
    | none => exact ⟨img, by simp [applyOp, undoDecorator, h, hr, CropImage_inner, UpdatePixmap]⟩
    | some rect =>
      exact ⟨cropFn rect img, by simp [applyOp, undoDecorator, h, hr, CropImage_inner, UpdatePixmap]⟩

/-- A mutating operation run on a loaded image pushes exactly the
pre-operation image onto the end of the undo buffer. -/
lemma applyOp_undoBuffer {α ρ : Type} (op : MutatingOp α ρ) (s : FullImageState α ρ) (img : α)
    (h : s.pilImage = some img) : (applyOp op s).undoBuffer = s.undoBuffer ++ [img] := by
  cases op with
  | filterOp f => simp [applyOp, undoDecorator, h, Filter_inner, UpdatePixmap]
  | cropOp cropFn =>
    cases hr : s.graphicsRectItem <;>
      simp [applyOp, undoDecorator, h, hr, CropImage_inner, UpdatePixmap]

/-- A mutating operation run on a loaded image marks the document modified and
enables the save action. -/
lemma applyOp_flags {α ρ : Type} (op : MutatingOp α ρ) (s : FullImageState α ρ) (img : α)
    (h : s.pilImage = some img) :
    (applyOp op s).imageCanBeSaved = true ∧ (applyOp op s).saveActionEnabled = true := by
  cases op with
  | filterOp f => simp [applyOp, undoDecorator, h, Filter_inner, UpdatePixmap]
  | cropOp cropFn =>
    cases hr : s.graphicsRectItem <;>
      simp [applyOp, undoDecorator, h, hr, CropImage_inner, UpdatePixmap]

/-- `UndoLastChange` on a non-empty buffer pops the most recent snapshot and
makes it the current image. -/
lemma UndoLastChange_concat {α ρ : Type} (s : FullImageState α ρ) (b : List α) (img : α)
    (h : s.undoBuffer = b ++ [img]) :
    (UndoLastChange s).pilImage = some img ∧ (UndoLastChange s).undoBuffer = b := by
  by_cases hb : b.isEmpty <;>
    simp [UndoLastChange, h, List.getLast?_concat, List.dropLast_concat, UpdatePixmap, hb]

/-- Auxiliary induction for C1: after any sequence of mutating operations on a
loaded image, the same number of undos restores both the displayed image and
the undo buffer. -/
lemma undo_iterate_applyOps {α ρ : Type} (ops : List (MutatingOp α ρ)) :
    ∀ (s : FullImageState α ρ) (img : α), s.pilImage = some img →
      (UndoLastChange^[ops.length] (applyOps ops s)).pilImage = some img ∧
      (UndoLastChange^[ops.length] (applyOps ops s)).undoBuffer = s.undoBuffer := by
  induction ops with
  | nil => intro s img h; simpa [applyOps] using h
  | cons op rest ih =>
    intro s img h
    obtain ⟨img', h'⟩ := applyOp_pilImage op s img h
    have hbuf := applyOp_undoBuffer op s img h
    have hrest := ih (applyOp op s) img' h'
    have hops : applyOps (op :: rest) s = applyOps rest (applyOp op s) := by
      simp [applyOps]
    have hlen : (op :: rest).length = rest.length + 1 := rfl
    rw [hops, hlen, Function.iterate_succ_apply']
    exact UndoLastChange_concat _ s.undoBuffer img (by rw [hrest.2, hbuf])

/-- C1: for every loaded image and every sequence of N mutating operations
(crop or any filter/adjustment) followed by N undos, the displayed image
equals the original image; moreover each mutating operation pushes the
pre-operation image onto the undo stack, and each undo pops the most recent
snapshot and makes it current. -/
theorem undo_restores_original {α ρ : Type} (s : FullImageState α ρ) (img : α)
    (h : s.pilImage = some img) (ops : List (MutatingOp α ρ)) :
    (UndoLastChange^[ops.length] (applyOps ops s)).pilImage = some img ∧
    (∀ (op : MutatingOp α ρ) (t : FullImageState α ρ) (cur : α), t.pilImage = some cur →
      (applyOp op t).undoBuffer = t.undoBuffer ++ [cur]) ∧
    (∀ (t : FullImageState α ρ) (b : List α) (last : α), t.undoBuffer = b ++ [last] →
      (UndoLastChange t).pilImage = some last ∧ (UndoLastChange t).undoBuffer = b) :=
  ⟨(undo_iterate_applyOps ops s img h).1,
   fun op t cur ht => applyOp_undoBuffer op t cur ht,
   fun t b last ht => UndoLastChange_concat t b last ht⟩

/-- Witness for C1 at a concrete input: image 5 loaded, two mutating
operations (a filter and a crop) followed by two undos redisplay image 5. -/
theorem undo_restores_original_witness :
    (initState (ρ := Unit) 5).pilImage = some 5 ∧
    ((UndoLastChange^[(exampleOps).length] (applyOps exampleOps (initState 5))).pilImage
        = some 5 ∧
      (∀ (op : MutatingOp Nat Unit) (t : FullImageState Nat Unit) (cur : Nat),
        t.pilImage = some cur → (applyOp op t).undoBuffer = t.undoBuffer ++ [cur]) ∧
      (∀ (t : FullImageState Nat Unit) (b : List Nat) (last : Nat), t.undoBuffer = b ++ [last] →
        (UndoLastChange t).pilImage = some last ∧ (UndoLastChange t).undoBuffer = b)) :=
  ⟨rfl, undo_restores_original (initState 5) 5 rfl exampleOps⟩

/-- `UndoLastChange` on an empty buffer only clears the modified flag and
disables the save action. -/
lemma UndoLastChange_nil {α ρ : Type} (s : FullImageState α ρ) (h : s.undoBuffer = []) :
    UndoLastChange s = { s with imageCanBeSaved := false, saveActionEnabled := false } := by
  simp [UndoLastChange, h]

/-- Flag behaviour of `UndoLastChange` on a non-empty buffer: the modified
flag and save action are cleared exactly when the popped buffer is empty. -/
lemma UndoLastChange_flags {α ρ : Type} (s : FullImageState α ρ) (b : List α) (img : α)
    (h : s.undoBuffer = b ++ [img]) :
    (UndoLastChange s).imageCanBeSaved = (if b.isEmpty then false else s.imageCanBeSaved) ∧
    (UndoLastChange s).saveActionEnabled
      = (if b.isEmpty then false else s.saveActionEnabled) := by
  by_cases hb : b.isEmpty <;>
    simp [UndoLastChange, h, List.getLast?_concat, List.dropLast_concat, UpdatePixmap, hb]

/-- Step preservation for C2: a mutating operation preserves the
"buffer empty iff unmodified iff save disabled" invariant. -/
lemma inv_mutate {α ρ : Type} (op : MutatingOp α ρ) (s : FullImageState α ρ)
    (ih : (s.undoBuffer = [] ↔ s.imageCanBeSaved = false) ∧
      s.saveActionEnabled = s.imageCanBeSaved) :
    ((applyOp op s).undoBuffer = [] ↔ (applyOp op s).imageCanBeSaved = false) ∧
    (applyOp op s).saveActionEnabled = (applyOp op s).imageCanBeSaved := by
  cases hp : s.pilImage with
  | none => rw [applyOp_of_pilImage_none op s hp]; exact ih
  | some img =>
    have h1 := applyOp_undoBuffer op s img hp
    have h2 := applyOp_flags op s img hp
    refine ⟨?_, by rw [h2.1, h2.2]⟩
    rw [h1, h2.1]
    simp

/-- Step preservation for C2: `UndoLastChange` preserves the invariant. -/
lemma inv_undo {α ρ : Type} (s : FullImageState α ρ)
    (ih : (s.undoBuffer = [] ↔ s.imageCanBeSaved = false) ∧
      s.saveActionEnabled = s.imageCanBeSaved) :
    ((UndoLastChange s).undoBuffer = [] ↔ (UndoLastChange s).imageCanBeSaved = false) ∧
    (UndoLastChange s).saveActionEnabled = (UndoLastChange s).imageCanBeSaved := by
  by_cases hne : s.undoBuffer = []
  · rw [UndoLastChange_nil s hne]
    simpa using hne
  · have hb : s.undoBuffer.dropLast ++ [s.undoBuffer.getLast hne] = s.undoBuffer :=
      List.dropLast_append_getLast hne
    have h1 := UndoLastChange_concat s s.undoBuffer.dropLast (s.undoBuffer.getLast hne) hb.symm
    have h2 := UndoLastChange_flags s s.undoBuffer.dropLast (s.undoBuffer.getLast hne) hb.symm
    by_cases hdrop : s.undoBuffer.dropLast.isEmpty
    · rw [h1.2, h2.1, h2.2]
      simp [hdrop]
      exact List.isEmpty_iff.mp hdrop
    · rw [h1.2, h2.1, h2.2]
      simp [hdrop]
      have hCan : s.imageCanBeSaved = true := by
        rcases Bool.eq_false_or_eq_true s.imageCanBeSaved with hc | hc
        · exact hc
        · exact absurd (ih.1.mpr hc) hne
      refine ⟨?_, by rw [ih.2]⟩
      rw [hCan]
      simpa using List.isEmpty_iff.not.mp hdrop

/-- The session invariant behind C2: in every reachable viewer state the undo
buffer is empty exactly when the document is unmodified, and the save action
enabled state mirrors the modified flag. -/
lemma viewer_invariant {α ρ : Type} {img0 : α} {s : FullImageState α ρ}
    (h : ViewerReachable α ρ img0 s) :
    (s.undoBuffer = [] ↔ s.imageCanBeSaved = false) ∧
    s.saveActionEnabled = s.imageCanBeSaved := by
  induction h with
  | init => simp [initState]
  | step hreach hstep ih =>
    cases hstep with
    | mutate op => exact inv_mutate _ _ ih
    | undoLast => exact inv_undo _ ih
    | rectSet r => simpa using ih
    | rectClear => simpa using ih

/-- C2: in every reachable viewer-session state, the undo stack is empty iff
the document is marked unmodified iff the save action is disabled; moreover
`UndoLastChange` pops the most recent snapshot, makes it current, and after an
undo the modified flag is cleared exactly when the stack is empty. -/
theorem undoStack_modified_save_invariant {α ρ : Type} (img0 : α) (s : FullImageState α ρ)
    (h : ViewerReachable α ρ img0 s) :
    (s.undoBuffer = [] ↔ s.imageCanBeSaved = false) ∧
    (s.imageCanBeSaved = false ↔ s.saveActionEnabled = false) ∧
    (∀ (b : List α) (last : α), s.undoBuffer = b ++ [last] →
      (UndoLastChange s).pilImage = some last ∧ (UndoLastChange s).undoBuffer = b) ∧
    ((UndoLastChange s).imageCanBeSaved = false ↔ (UndoLastChange s).undoBuffer = []) := by
  have hinv := viewer_invariant h
  have hinv' := viewer_invariant (h.step (ViewerStep.undoLast s))
  refine ⟨hinv.1, ?_, fun b last hb => UndoLastChange_concat s b last hb, hinv'.1.symm⟩
  rw [hinv.2]

/-- Witness for C2 at a concrete reachable state: the freshly initialised
session over image 0. -/
theorem undoStack_modified_save_invariant_witness :
    ViewerReachable Nat Unit 0 (initState 0) ∧
    (((initState 0 : FullImageState Nat Unit).undoBuffer = []
        ↔ (initState 0 : FullImageState Nat Unit).imageCanBeSaved = false) ∧
      ((initState 0 : FullImageState Nat Unit).imageCanBeSaved = false
        ↔ (initState 0 : FullImageState Nat Unit).saveActionEnabled = false) ∧
      (∀ (b : List Nat) (last : Nat),
        (initState 0 : FullImageState Nat Unit).undoBuffer = b ++ [last] →
        (UndoLastChange (initState 0 : FullImageState Nat Unit)).pilImage = some last ∧
        (UndoLastChange (initState 0 : FullImageState Nat Unit)).undoBuffer = b) ∧
      ((UndoLastChange (initState 0 : FullImageState Nat Unit)).imageCanBeSaved = false
        ↔ (UndoLastChange (initState 0 : FullImageState Nat Unit)).undoBuffer = [])) :=
  ⟨ViewerReachable.init,
   undoStack_modified_save_invariant 0 (initState 0) ViewerReachable.init⟩

/-- C3: `SuperResolution` invoked with a factor outside 2–4 returns the input
image itself, logs an error and raises no exception (it is a total function);
for factors 2–4 it runs the upscaling model. -/
theorem superResolution_range_check {α : Type} (upsample : Int → α → α) (inputImage : α)
    (factor : Int) (h : factor < 2 ∨ 4 < factor) :
    (SuperResolution upsample inputImage factor).image = inputImage ∧
    (SuperResolution upsample inputImage factor).errorLogged = true ∧
    (∀ validFactor : Int, 2 ≤ validFactor → validFactor ≤ 4 →
      (SuperResolution upsample inputImage validFactor).image
          = upsample validFactor inputImage ∧
      (SuperResolution upsample inputImage validFactor).errorLogged = false) := by
  have hcond : ¬(factor ≥ 2 ∧ factor ≤ 4) := by omega
  refine ⟨?_, ?_, ?_⟩
  · simp [SuperResolution, hcond]
  · simp [SuperResolution, hcond]
  · intro v h2 h4
    have hc : v ≥ 2 ∧ v ≤ 4 := ⟨h2, h4⟩
    constructor
    · simp only [SuperResolution, if_pos hc]
    · simp only [SuperResolution, if_pos hc]

/-- Witness for C3 at the concrete out-of-range factor 5 over `Nat` images. -/
theorem superResolution_range_check_witness :
    ((5 : Int) < 2 ∨ 4 < (5 : Int)) ∧
    ((SuperResolution (fun (f : Int) (n : Nat) => n + f.natAbs) 3 5).image = 3 ∧
      (SuperResolution (fun (f : Int) (n : Nat) => n + f.natAbs) 3 5).errorLogged = true ∧
      (∀ validFactor : Int, 2 ≤ validFactor → validFactor ≤ 4 →
        (SuperResolution (fun (f : Int) (n : Nat) => n + f.natAbs) 3 validFactor).image
            = 3 + validFactor.natAbs ∧
        (SuperResolution (fun (f : Int) (n : Nat) => n + f.natAbs) 3
            validFactor).errorLogged = false)) :=
  ⟨by decide, superResolution_range_check (fun f n => n + f.natAbs) 3 5 (by decide)⟩

/-! ### The code-point order underlying the directory sort (C4, C5, C10) -/

/-- Characters with equal code points are equal. -/
lemma char_eq_of_toNat_eq {a b : Char} (h : a.toNat = b.toNat) : a = b :=
  Char.ext (UInt32.toNat.inj h)

/-- Python string `<` is asymmetric. -/
lemma strLtb_asymm : ∀ a b : List Char, strLtb a b = true → strLtb b a = false
  | [], x => by cases x <;> simp [strLtb]
  | _ :: _, [] => by simp [strLtb]
  | a :: as, b :: bs => by
    by_cases hab : a = b
    · subst hab
      simpa [strLtb] using strLtb_asymm as bs
    · have hba : ¬b = a := fun h => hab h.symm
      simp only [strLtb, if_neg hab, if_neg hba, charLt]
      simp only [decide_eq_true_eq, decide_eq_false_iff_not, not_lt]
      omega

/-- Two strings neither of which is `<` the other are equal. -/
lemma strLtb_connex : ∀ a b : List Char, strLtb a b = false → strLtb b a = false → a = b
  | [], [] => by simp
  | [], _ :: _ => by simp [strLtb]
  | _ :: _, [] => by simp [strLtb]
  | a :: as, b :: bs => by
    by_cases hab : a = b
    · subst hab
      simp only [strLtb, if_pos rfl]
      intro h1 h2
      rw [strLtb_connex as bs h1 h2]
    · have hba : ¬b = a := fun h => hab h.symm
      simp only [strLtb, if_neg hab, if_neg hba, charLt]
      simp only [decide_eq_false_iff_not, not_lt]
      intro h1 h2
      exact absurd (char_eq_of_toNat_eq (Nat.le_antisymm h2 h1)) hab

/-- Python string `<` is transitive. -/
lemma strLtb_trans : ∀ a b c : List Char,
    strLtb a b = true → strLtb b c = true → strLtb a c = true
  | [], x, [] => by cases x <;> simp [strLtb]
  | [], [], _ :: _ => by simp [strLtb]
  | [], _ :: _, _ :: _ => by simp [strLtb]
  | _ :: _, [], _ => by simp [strLtb]
  | _ :: _, _ :: _, [] => by simp [strLtb]
  | a :: as, b :: bs, c :: cs => by
    by_cases hab : a = b <;> by_cases hbc : b = c
    · subst hab; subst hbc
      simpa [strLtb] using strLtb_trans as bs cs
    · subst hab
      simp only [strLtb, if_pos rfl, if_neg hbc]
      exact fun _ h => h
    · subst hbc
      simp only [strLtb, if_neg hab, if_pos rfl]
      exact fun h _ => h
    · simp only [strLtb, if_neg hab, if_neg hbc, charLt, decide_eq_true_eq]
      intro hlt1 hlt2
      have hac : ¬a = c := by
        intro h
        subst h
        omega
      simp only [if_neg hac, charLt, decide_eq_true_eq]
      omega

/-- The sort relation of the directory listing is total. -/
lemma nameKeyRel_total (a b : DirEntry) : nameKeyRel a b ∨ nameKeyRel b a := by
  simp only [nameKeyRel, nameKeyLe, strLeb, Bool.not_eq_true']
  cases h : strLtb (strLower b.name) (strLower a.name) with
  | false => exact Or.inl rfl
  | true => exact Or.inr (strLtb_asymm _ _ h)

/-- The sort relation of the directory listing is transitive. -/
lemma nameKeyRel_trans (a b c : DirEntry) (h1 : nameKeyRel a b) (h2 : nameKeyRel b c) :
    nameKeyRel a c := by
  simp only [nameKeyRel, nameKeyLe, strLeb, Bool.not_eq_true'] at h1 h2 ⊢
  cases h : strLtb (strLower c.name) (strLower a.name) with
  | false => rfl
  | true =>
    exfalso
    cases hb : strLtb (strLower b.name) (strLower c.name) with
    | false =>
      have hbc := strLtb_connex _ _ hb h2
      rw [hbc, h] at h1
      exact Bool.true_eq_false.mp h1
    | true =>
      have htr := strLtb_trans _ _ _ hb h
      rw [htr] at h1
      exact Bool.true_eq_false.mp h1

/-- C4: the browser listing is the parent directory first, then the child
folders sorted case-insensitively by name, then the children whose extension
matches the allow-list case-insensitively, sorted case-insensitively by name;
on the spec's example directory this gives
[parent, subfolderA, subfolderB, image1.png, image2.JPG, video1.mp4]. -/
theorem directory_listing_spec :
    SetLabelsFileList exampleParentDir exampleDirChildren =
      [exampleParentDir, ⟨"subfolderA".data, true⟩, ⟨"subfolderB".data, true⟩,
        ⟨"image1.png".data, false⟩, ⟨"image2.JPG".data, false⟩,
        ⟨"video1.mp4".data, false⟩] ∧
    ∀ (parent : DirEntry) (children : List DirEntry),
      SetLabelsFileList parent children
          = parent :: ((GetFolderList parent children).tail ++ GetImagePathList children) ∧
      List.Sorted nameKeyRel (GetFolderList parent children).tail ∧
      List.Sorted nameKeyRel (GetImagePathList children) ∧
      (∀ e : DirEntry, e ∈ (GetFolderList parent children).tail ↔
        e ∈ children ∧ e.isDir = true ∧ startsWithDot e.name = false) ∧
      (∀ e : DirEntry, e ∈ GetImagePathList children ↔
        e ∈ children ∧ strLower (pathSuffix e.name) ∈ SUPPORTED_EXTENSIONS) := by
  haveI : IsTotal DirEntry nameKeyRel := ⟨nameKeyRel_total⟩
  haveI : IsTrans DirEntry nameKeyRel := ⟨nameKeyRel_trans⟩
  refine ⟨by decide, fun parent children => ⟨?_, ?_, ?_, ?_, ?_⟩⟩
  · simp [SetLabelsFileList, GetFolderList]
  · simpa [GetFolderList] using List.sorted_insertionSort nameKeyRel
      (children.filter (fun e => e.isDir && !(startsWithDot e.name)))
  · exact List.sorted_insertionSort nameKeyRel _
  · intro e
    simp [GetFolderList, List.mem_insertionSort, List.mem_filter,
      Bool.and_eq_true, Bool.not_eq_true', and_assoc]
  · intro e
    simp [GetImagePathList, List.mem_insertionSort, List.mem_filter, List.elem_iff]

/-- C5 counterexample: `.mkv` is not in the allow-list
(`Constants.VIDEO_EXTENSIONS` holds only `.mp4`), and a directory containing
only `video1.mkv` lists no media file at all. -/
theorem mkv_not_supported_counterexample :
    ".mkv".data ∉ SUPPORTED_EXTENSIONS ∧
    SetLabelsFileList exampleParentDir [⟨"video1.mkv".data, false⟩] = [exampleParentDir] := by
  decide

/-- C5 amended: the only video extension in the allow-list is `.mp4`; a file
whose extension is `.mkv` in any letter case never appears in the media-file
part of the browser listing. -/
theorem video_extensions_mp4_only (children : List DirEntry) (e : DirEntry)
    (h : strLower (pathSuffix e.name) = ".mkv".data) :
    VIDEO_EXTENSIONS = [".mp4".data] ∧ e ∉ GetImagePathList children := by
  refine ⟨rfl, ?_⟩
  intro hmem
  rw [GetImagePathList, List.mem_insertionSort, List.mem_filter] at hmem
  have hcontains := hmem.2
  rw [h] at hcontains
  exact absurd hcontains (by decide)

/-- Witness for the amended C5 at the concrete file `a.MKV`. -/
theorem video_extensions_mp4_only_witness :
    strLower (pathSuffix "a.MKV".data) = ".mkv".data ∧
    (VIDEO_EXTENSIONS = [".mp4".data] ∧
      (⟨"a.MKV".data, false⟩ : DirEntry)
        ∉ GetImagePathList [⟨"a.MKV".data, false⟩]) :=
  ⟨by decide,
   video_extensions_mp4_only [⟨"a.MKV".data, false⟩] ⟨"a.MKV".data, false⟩ (by decide)⟩

/-- C10 counterexample: a hidden child folder named `.x.png` (name begins
with a dot, `is_dir` true) does appear in the browser listing, because
`_GetImagePathList` filters by suffix only and `.x.png` has suffix `.png`. -/
theorem hidden_folder_listed_counterexample :
    startsWithDot ".x.png".data = true ∧
    (DirEntry.mk ".x.png".data true).isDir = true ∧
    DirEntry.mk ".x.png".data true
      ∈ SetLabelsFileList exampleParentDir [DirEntry.mk ".x.png".data true] := by
  decide

/-- C10 amended: an entry whose name begins with a dot never appears among
the folder entries produced by `_GetFolderList` (beyond the always-prepended
parent), but it appears in the media-file part of the listing exactly when its
lowercased extension is in the allow-list — `_GetImagePathList` does not check
the entry type, so a hidden folder with a media extension is still listed. -/
theorem hidden_folders_amended (parent : DirEntry) (children : List DirEntry) (e : DirEntry)
    (hdot : startsWithDot e.name = true) :
    e ∉ (GetFolderList parent children).tail ∧
    (e ∈ GetImagePathList children ↔
      e ∈ children ∧ strLower (pathSuffix e.name) ∈ SUPPORTED_EXTENSIONS) := by
  constructor
  · intro hmem
    simp only [GetFolderList, List.tail_cons, List.mem_insertionSort,
      List.mem_filter, Bool.and_eq_true, Bool.not_eq_true'] at hmem
    exact absurd hdot (by simp [hmem.2.2])
  · simp [GetImagePathList, List.mem_insertionSort, List.mem_filter, List.elem_iff]

/-- Witness for the amended C10 at the concrete hidden folder `.x.png`. -/
theorem hidden_folders_amended_witness :
    startsWithDot ".x.png".data = true ∧
    (DirEntry.mk ".x.png".data true
        ∉ (GetFolderList exampleParentDir [DirEntry.mk ".x.png".data true]).tail ∧
      (DirEntry.mk ".x.png".data true
          ∈ GetImagePathList [DirEntry.mk ".x.png".data true] ↔
        DirEntry.mk ".x.png".data true ∈ [DirEntry.mk ".x.png".data true] ∧
          strLower (pathSuffix (DirEntry.mk ".x.png".data true).name)
            ∈ SUPPORTED_EXTENSIONS)) :=
  ⟨by decide,
   hidden_folders_amended exampleParentDir [DirEntry.mk ".x.png".data true]
     (DirEntry.mk ".x.png".data true) (by decide)⟩

/-- C6: during a modifier-held drag over a loaded image, the recomputed
selection rectangle — the axis-aligned bounding box of the drag origin and
the cursor, intersected with the bounding rectangle of the pixmap — is a subset of
the image bounds, for every drag origin and cursor position. -/
theorem selection_rect_subset (sceneStartDragPoint sceneCursorPos : QPointF) (bd : QRectF) :
    (mouseMoveSelectionRect sceneStartDragPoint sceneCursorPos (some bd)).subsetOf bd := by
  intro px py hc
  simp only [mouseMoveSelectionRect, QRectF.intersected] at hc
  split_ifs at hc with h1 h2
  · simp [QRectF.containsPoint] at hc
  · simp [QRectF.containsPoint] at hc
  · have hbd : bd.isEmptyRect = false := by
      cases hb : bd.isEmptyRect
      · rfl
      · rw [hb] at h1; simp at h1
    simp only [QRectF.isEmptyRect, Bool.or_eq_false_iff, decide_eq_false_iff_not,
      not_le] at hbd
    simp only [QRectF.containsPoint] at hc
    obtain ⟨-, -, hle, hri, hto, hbo⟩ := hc
    exact ⟨hbd.1, hbd.2,
      le_trans (le_max_right _ _) hle, le_trans hri (min_le_right _ _),
      le_trans (le_max_right _ _) hto, le_trans hbo (min_le_right _ _)⟩

/-- Witness for C6 at concrete drag points and image bounds. -/
theorem selection_rect_subset_witness :
    (mouseMoveSelectionRect ⟨1, 1⟩ ⟨3, 3⟩ (some ⟨0, 0, 2, 2⟩)).subsetOf ⟨0, 0, 2, 2⟩ :=
  selection_rect_subset ⟨1, 1⟩ ⟨3, 3⟩ ⟨0, 0, 2, 2⟩

/-- C7 counterexample: `CropImage` invoked with an image loaded but no
selection rectangle is not a complete no-op — the decorator still pushes the
image onto the undo stack and marks the document modified. -/
theorem crop_without_rect_counterexample :
    (initState (α := Nat) (ρ := Unit) 0).graphicsRectItem = none ∧
    (initState (α := Nat) (ρ := Unit) 0).undoBuffer = [] ∧
    (initState (α := Nat) (ρ := Unit) 0).imageCanBeSaved = false ∧
    (applyOp (MutatingOp.cropOp (fun (_ : Unit) (n : Nat) => n))
      (initState 0)).undoBuffer = [0] ∧
    (applyOp (MutatingOp.cropOp (fun (_ : Unit) (n : Nat) => n))
      (initState 0)).imageCanBeSaved = true := by
  decide

/-- C7 amended: with no image loaded every mutating operation raises no
exception and is a complete no-op; crop invoked with an image but no
selection rectangle raises no exception and leaves the current image
unchanged, but still pushes the pre-operation image onto the undo stack and
marks the document modified / save enabled. -/
theorem missing_precondition_amended {α ρ : Type} (op : MutatingOp α ρ)
    (s : FullImageState α ρ) (h : s.pilImage = none) :
    applyOp op s = s ∧
    (∀ (cropFn : ρ → α → α) (t : FullImageState α ρ) (img : α),
      t.pilImage = some img → t.graphicsRectItem = none →
      applyOp (MutatingOp.cropOp cropFn) t
        = { t with
            undoBuffer := t.undoBuffer ++ [img]
            imageCanBeSaved := true
            saveActionEnabled := true }) := by
  refine ⟨applyOp_of_pilImage_none op s h, ?_⟩
  intro cropFn t img ht hr
  simp [applyOp, undoDecorator, CropImage_inner, UpdatePixmap, ht, hr,
    FullImageState.mk.injEq]

/-- Witness for the amended C7 at a concrete image-less viewer state. -/
theorem missing_precondition_amended_witness :
    (FullImageState.mk (α := Nat) (ρ := Unit) none [] false false none).pilImage = none ∧
    (applyOp (MutatingOp.filterOp Nat.succ)
        (FullImageState.mk (α := Nat) (ρ := Unit) none [] false false none)
      = FullImageState.mk none [] false false none ∧
    (∀ (cropFn : Unit → Nat → Nat) (t : FullImageState Nat Unit) (img : Nat),
      t.pilImage = some img → t.graphicsRectItem = none →
      applyOp (MutatingOp.cropOp cropFn) t
        = { t with
            undoBuffer := t.undoBuffer ++ [img]
            imageCanBeSaved := true
            saveActionEnabled := true })) :=
  ⟨rfl, missing_precondition_amended (MutatingOp.filterOp Nat.succ)
    (FullImageState.mk none [] false false none) rfl⟩

/-- A cancelled thumbnail cell is left untouched by the worker task body and
by resize events: every checkpoint sees `_loadCancelled = True` and skips. -/
lemma applyThumbnailStep_cancelled {α : Type} (fallbackImage : Option α)
    (scaleToThumbnail : α → α) (stp : ThumbnailStep α) (s : ThumbnailState α)
    (h : s.loadCancelled = true) :
    applyThumbnailStep fallbackImage scaleToThumbnail stp s = s := by
  cases stp <;>
    simp [applyThumbnailStep, LoadImageInThread, ResizeImage, h]

/-- A cancelled thumbnail cell is left untouched by any sequence of events. -/
lemma applyThumbnailSteps_cancelled {α : Type} (fallbackImage : Option α)
    (scaleToThumbnail : α → α) (steps : List (ThumbnailStep α)) (s : ThumbnailState α)
    (h : s.loadCancelled = true) :
    applyThumbnailSteps fallbackImage scaleToThumbnail steps s = s := by
  induction steps with
  | nil => rfl
  | cons stp rest ih =>
    show applyThumbnailSteps fallbackImage scaleToThumbnail rest
      (applyThumbnailStep fallbackImage scaleToThumbnail stp s) = s
    rw [applyThumbnailStep_cancelled fallbackImage scaleToThumbnail stp s h]
    exact ih

/-- C8: if a thumbnail load is cancelled right after submission (before the
task body ran), then after any sequence of worker/resize events the cell
still shows the placeholder and the `loaded` signal has never been
emitted. -/
theorem cancelled_cell_stays_placeholder {α : Type} (fallbackImage : Option α)
    (scaleToThumbnail : α → α) (defaultImage : α) (steps : List (ThumbnailStep α)) :
    (applyThumbnailSteps fallbackImage scaleToThumbnail steps
        (CancelLoad (initThumbnail defaultImage))).labelPixmap = some defaultImage ∧
    (applyThumbnailSteps fallbackImage scaleToThumbnail steps
        (CancelLoad (initThumbnail defaultImage))).loadedEmitted = false := by
  rw [applyThumbnailSteps_cancelled fallbackImage scaleToThumbnail steps
    (CancelLoad (initThumbnail defaultImage)) rfl]
  exact ⟨rfl, rfl⟩

/-- C9: next/previous navigation wraps around a non-empty image list and the
index always stays within bounds. -/
theorem navigation_wraps (imageListLength currentImageIndex : Int)
    (hlen : 1 ≤ imageListLength) (h0 : 0 ≤ currentImageIndex)
    (hlt : currentImageIndex < imageListLength) :
    nextImage imageListLength (imageListLength - 1) = 0 ∧
    prevImage imageListLength 0 = imageListLength - 1 ∧
    0 ≤ nextImage imageListLength currentImageIndex ∧
    nextImage imageListLength currentImageIndex < imageListLength ∧
    0 ≤ prevImage imageListLength currentImageIndex ∧
    prevImage imageListLength currentImageIndex < imageListLength := by
  simp only [nextImage, prevImage]
  split_ifs <;> omega

/-- Witness for C9 at a concrete list of length 3 and current index 1. -/
theorem navigation_wraps_witness :
    ((1 : Int) ≤ 3 ∧ (0 : Int) ≤ 1 ∧ (1 : Int) < 3) ∧
    (nextImage 3 (3 - 1) = 0 ∧
      prevImage 3 0 = 3 - 1 ∧
      0 ≤ nextImage 3 1 ∧ nextImage 3 1 < 3 ∧
      0 ≤ prevImage 3 1 ∧ prevImage 3 1 < 3) :=
  ⟨⟨by decide, by decide, by decide⟩,
   navigation_wraps 3 1 (by decide) (by decide) (by decide)⟩
